import Mathlib

set_option maxRecDepth 8000

/-!
Shallow embedding of the CASort event-reconstruction code
(`src/AddBack.cpp`, the `CAAddBack` variant in `src/Utilities.cpp`,
`src/CACalibration.cpp`, `src/CACrosstalkCorrection.cpp`,
`src/CAGainCorrection.cpp`, `src/CAUtilities.cpp` and the GainMatch tool),
together with theorems settling the specification claims.  C++ doubles are
modelled as `Option ℚ` (`none` = NaN) where NaN behaviour matters and as `ℚ`
elsewhere; machine floating-point rounding is not modelled.
-/

namespace CASort

/-- A double that may be NaN: `none` models NaN, `some q` a real value. -/
abbrev EFloat := Option ℚ

/-- IEEE `>` on doubles: any comparison involving NaN is false. -/
def fgt : EFloat → EFloat → Bool
  | some a, some b => decide (b < a)
  | _, _ => false

/-- IEEE `>=` on doubles: any comparison involving NaN is false. -/
def fge : EFloat → EFloat → Bool
  | some a, some b => decide (b ≤ a)
  | _, _ => false

/-- `fabs(a - b) < w` on doubles: subtraction propagates NaN and any
comparison involving NaN is false, so the test is false when either
operand is NaN. -/
def fabsSubLt (a b : EFloat) (w : ℚ) : Bool :=
  match a, b with
  | some a, some b => decide (|a - b| < w)
  | _, _ => false

namespace CAAddBack

/-- `CAAddBack::kAddBackThreshold` (CAAddBack.hpp): energy threshold in keV. -/
def kAddBackThreshold : ℚ := 150

/-- `CAAddBack::kAddBackWindow` (CAAddBack.hpp): time window in ns. -/
def kAddBackWindow : ℚ := 150

/-- One iteration of the primary-search loop of `CAAddBack::GetAddBackEnergy`
(Utilities.cpp lines 152-160): `if (xtalE[xtal] >= primaryE) { primaryE =
xtalE[xtal]; primaryIdx = xtal; }`.  The accumulator is the pair
`(primaryE, primaryIdx)`; `primaryE` is seeded with the threshold and is
never NaN (the update fires only when the `>=` comparison succeeds, which a
NaN energy never does), so it is carried as a plain rational and
`Option.getD` extracts the necessarily-real updated value. -/
def primaryStep (xtalE : Fin 4 → EFloat) (acc : ℚ × Option (Fin 4)) (xtal : Fin 4) :
    ℚ × Option (Fin 4) :=
  if fge (xtalE xtal) (some acc.1) then ((xtalE xtal).getD 0, some xtal) else acc

/-- The primary-search loop of `CAAddBack::GetAddBackEnergy` (Utilities.cpp
lines 147-160), with `primaryE` seeded at the threshold and `primaryIdx`
at `-1` (modelled as `none`). -/
def findPrimary (xtalE : Fin 4 → EFloat) : ℚ × Option (Fin 4) :=
  (List.finRange 4).foldl (primaryStep xtalE) (kAddBackThreshold, none)

/-- The add-back contribution of crystal `xtal` in the second loop of
`CAAddBack::GetAddBackEnergy` (Utilities.cpp lines 165-174): the primary is
skipped (`continue`), every other crystal contributes its energy iff
`xtalE[xtal] > kAddBackThreshold && fabs(primaryTime - xtalT[xtal]) <
kAddBackWindow`. -/
def secondaryContrib (xtalE xtalT : Fin 4 → EFloat) (primaryIdx xtal : Fin 4) : ℚ :=
  if xtal = primaryIdx then 0
  else if fgt (xtalE xtal) (some kAddBackThreshold) &&
      fabsSubLt (xtalT primaryIdx) (xtalT xtal) kAddBackWindow then
    (xtalE xtal).getD 0
  else 0

/-- `CAAddBack::GetAddBackEnergy` (Utilities.cpp lines 143-189), the
threshold-seeded `>=` variant: if a primary was found, `finalE` starts at
`primaryE` and the loop adds the qualifying secondary energies; otherwise
the function returns 0. -/
def GetAddBackEnergy (xtalE xtalT : Fin 4 → EFloat) : ℚ :=
  match findPrimary xtalE with
  | (primaryE, some primaryIdx) =>
      (List.finRange 4).foldl
        (fun acc xtal => acc + secondaryContrib xtalE xtalT primaryIdx xtal) primaryE
  | (_, none) => 0

end CAAddBack

namespace AddBack

/-- `AddBack::kAddBackThreshold` (AddBack.hpp). -/
def kAddBackThreshold : ℚ := 150

/-- `AddBack::kAddBackWindow` (AddBack.hpp). -/
def kAddBackWindow : ℚ := 150

/-- One iteration of the primary-search loop of `AddBack::GetAddBackEnergy`
(AddBack.cpp lines 27-37): `if (e[crystal] > kAddBackThreshold) { if
(e[crystal] > highest_energy) { update } }`.  The pair carries
`(highest_energy, highest_energy_index)` and the loop runs over the
enumerated energy list. -/
def primaryStep (acc : ℚ × Option ℕ) (p : ℕ × EFloat) : ℚ × Option ℕ :=
  if fgt p.2 (some kAddBackThreshold) then
    (if fgt p.2 (some acc.1) then (p.2.getD 0, some p.1) else acc)
  else acc

/-- The primary-search loop of `AddBack::GetAddBackEnergy` (AddBack.cpp
lines 20-37): `highest_energy` starts at 0 and the index at `-1` (`none`). -/
def findPrimary (es : List EFloat) : ℚ × Option ℕ :=
  es.enum.foldl primaryStep (0, none)

/-- The contribution of one crystal in the add-back loop of
`AddBack::GetAddBackEnergy` (AddBack.cpp lines 40-51): energy is added iff
`fabs(t[hi] - t[crystal]) < kAddBackWindow` and then
`e[crystal] > kAddBackThreshold` (the primary is not skipped; it passes via
`fabs(t[hi]-t[hi]) = 0`). -/
def contrib (ts : List EFloat) (hi : ℕ) (p : ℕ × EFloat) : ℚ :=
  if fabsSubLt (ts.getD hi none) (ts.getD p.1 none) kAddBackWindow then
    (if fgt p.2 (some kAddBackThreshold) then p.2.getD 0 else 0)
  else 0

/-- `AddBack::GetAddBackEnergy` (AddBack.cpp lines 10-57): returns 0 with a
diagnostic when the two vectors differ in size; otherwise finds the primary
and, if one exists, sums the qualifying crystals (primary included through
the same time/energy cuts). -/
def GetAddBackEnergy (es ts : List EFloat) : ℚ :=
  if es.length ≠ ts.length then 0
  else
    match (findPrimary es).2 with
    | some hi => es.enum.foldl (fun acc p => acc + contrib ts hi p) 0
    | none => 0

end AddBack

namespace CACalibration

/-- `CACalibration::kMaxCalibrationEnergy` (CACalibration.hpp line 16):
"Maximum energy for calibration spline", 7282.92. -/
def kMaxCalibrationEnergy : ℚ := 728292 / 100

/-- One line of a calibration file, as the two loaders in CACalibration.cpp
classify it after trimming whitespace: empty, starting with the comment
marker `#`, parsing as two numbers (`iss >> x >> y` succeeds), or anything
else (a non-comment line that does not parse as two numbers). -/
inductive CalLine
  | blank
  | comment
  | data (x y : ℚ)
  | malformed
deriving DecidableEq

/-- The inner `while (std::getline...)` loop of
`CACalibration::LoadSplineCorrParams` (CACalibration.cpp lines 40-63):
blank and comment lines are skipped; the first remaining line is skipped as
the linear-parameter line (`skipped_linear`); every later line that parses
as two numbers is collected as a spline knot. -/
def collectKnots : List CalLine → Bool → List (ℚ × ℚ)
  | [], _ => []
  | .blank :: rest, skippedLinear => collectKnots rest skippedLinear
  | .comment :: rest, skippedLinear => collectKnots rest skippedLinear
  | .data x y :: rest, skippedLinear =>
      if skippedLinear then (x, y) :: collectKnots rest true else collectKnots rest true
  | .malformed :: rest, _ => collectKnots rest true

/-- The knot list produced by `CACalibration::LoadSplineCorrParams`
(CACalibration.cpp lines 11-86).  The outer `while (std::getline...)` loop
(line 23) reads the file's first line and never examines it; its body is the
inner loop of `collectKnots`, which consumes the rest of the file; after the
inner loop `line` is empty, so the trailing parse block (lines 64-73) never
runs, and the outer `getline` then fails.  An empty file yields no knots. -/
def LoadSplineKnots : List CalLine → List (ℚ × ℚ)
  | [] => []
  | _ :: rest => collectKnots rest false

/-- Modelled from the spec: "the first data-bearing line is consumed as
linear parameters and is not treated as a spline knot", knots being every
subsequent line that parses as two numbers.  This is the inner loop applied
to the whole file instead of the tail. -/
def LoadSplineKnotsSpec (lines : List CalLine) : List (ℚ × ℚ) :=
  collectKnots lines false

/-- `CACalibration::LoadLinearCalParams` (CACalibration.cpp lines 88-123):
a fresh pass over the file that skips blank and comment lines, keeps
searching past lines that do not parse as two numbers, and returns
`(offset, slope)` from the first line that does; defaults to `(0, 0)`. -/
def LoadLinearCalParams : List CalLine → ℚ × ℚ
  | [] => (0, 0)
  | .data offset slope :: _ => (offset, slope)
  | _ :: rest => LoadLinearCalParams rest

/-- The calibration closure built by `CACalibration::MakeCalibration`
(CACalibration.cpp lines 134-140).  The cubic spline held by the closure is
an external ROOT object; its evaluation is abstracted as `splineEval`.
Note the guard compares the raw `input`, not `lincal_E`, against
`kMaxCalibrationEnergy`. -/
def MakeCalibrationFunc (slope offset : ℚ) (splineEval : ℚ → ℚ) (input : ℚ) : ℚ :=
  let lincalE := slope * input + offset
  let splineCorr := splineEval lincalE
  if input < kMaxCalibrationEnergy then lincalE + splineCorr else lincalE

/-- Modelled from the spec: "energy(raw) = slope·raw + offset, then if
energy < maxTrustedEnergy add the spline's evaluation of that linear
energy; otherwise the linear value alone is returned". -/
def MakeCalibrationFuncSpec (slope offset : ℚ) (splineEval : ℚ → ℚ) (input : ℚ) : ℚ :=
  let lincalE := slope * input + offset
  let splineCorr := splineEval lincalE
  if lincalE < kMaxCalibrationEnergy then lincalE + splineCorr else lincalE

end CACalibration

namespace CAUtilities

/-- One line of a "CA" text file as `CAUtilities::ReadCAFile`
(CAUtilities.cpp lines 76-127) classifies it: empty; starting with `#`
(`hasChannelWord` records whether the line contains the substring
"Channel", which distinguishes the column-header comment from a section
header); or a data line carrying the numeric tokens that stream extraction
parses from it (a line with no leading numeric token carries `[]`). -/
inductive CALine
  | blank
  | header (hasChannelWord : Bool)
  | data (vals : List ℚ)
deriving DecidableEq

/-- `data.back().push_back(row)`: append a row to the last section.  C++
invokes undefined behaviour (`data.back()` on an empty vector) when a data
line precedes every section header; that case is modelled as dropping the
row and does not arise in the files the claims concern. -/
def pushRow : List (List (List ℚ)) → List ℚ → List (List (List ℚ))
  | [], _ => []
  | [s], row => [s ++ [row]]
  | s :: rest, row => s :: pushRow rest row

/-- `CAUtilities::ReadCAFile` (CAUtilities.cpp lines 76-127): skip empty
lines; a `#` line containing "Channel" is skipped, any other `#` line opens
a new section; a data line is appended to the current (last) section. -/
def ReadCAFile (lines : List CALine) : List (List (List ℚ)) :=
  lines.foldl
    (fun data l =>
      match l with
      | .blank => data
      | .header true => data
      | .header false => data ++ [[]]
      | .data vals => pushRow data vals)
    []

end CAUtilities

namespace CACrosstalkCorrection

/-- `CACrosstalkCorrection::CrosstalkFit` (CACrosstalkCorrection.hpp):
validity flag, the two leakage coefficients with standard errors, and the
goodness of fit. -/
structure CrosstalkFit where
  valid : Bool
  alpha_xy : ℚ
  alpha_yx : ℚ
  alpha_xy_err : ℚ
  alpha_yx_err : ℚ
  chi2 : ℚ
  ndf : ℤ
deriving DecidableEq

/-- What the external minimizer (`TGraphErrors::Fit` on the ROOT `TF1`)
hands back for one crystal pair: fitted parameters 0 and 1 with their
errors, chi-square, degrees of freedom, and whether the minimization
converged.  The result of `graph->Fit(...)` on line 94 of
CACrosstalkCorrection.cpp carries this status, but the code never reads
it. -/
structure FitOutcome where
  converged : Bool
  par0 : ℚ
  par1 : ℚ
  err0 : ℚ
  err1 : ℚ
  chi2 : ℚ
  ndf : ℤ
deriving DecidableEq

/-- `CACrosstalkCorrection::FitCrosstalkCorrection`, result assembly
(CACrosstalkCorrection.cpp lines 96-105): `result.valid = true;` is
unconditional — the convergence status of the fit is never consulted. -/
def FitCrosstalkCorrection (fit : FitOutcome) : CrosstalkFit :=
  { valid := true
    alpha_xy := fit.par0
    alpha_yx := fit.par1
    alpha_xy_err := fit.err0
    alpha_yx_err := fit.err1
    chi2 := fit.chi2
    ndf := fit.ndf }

/-- A per-detector 4×4 crosstalk matrix (`TMatrixD(4, 4)`). -/
abbrev Mat4 : Type := Fin 4 → Fin 4 → ℚ

/-- A fit result carrying `valid = false`, as the `else` branch of
`BuildCrosstalkMatrix` would receive it; used to exercise that branch. -/
def invalidFit : CrosstalkFit :=
  { valid := false
    alpha_xy := 1
    alpha_yx := 1
    alpha_xy_err := 0
    alpha_yx_err := 0
    chi2 := 5
    ndf := 1 }

/-- `A(i, j) = v`. -/
def setEntry (A : Mat4) (i j : Fin 4) (v : ℚ) : Mat4 :=
  fun a b => if a = i ∧ b = j then v else A a b

/-- The warning printed by `CACrosstalkCorrection::BuildCrosstalkMatrix`
(CACrosstalkCorrection.cpp line 136) for an invalid fit. -/
def warnMsg (i j : Fin 4) : String :=
  "[WARN] Invalid crosstalk fit for pair (" ++ toString i.1 ++ ", " ++ toString j.1 ++
    "). Setting coefficients to 0"

/-- The effect of one `(i, j)` iteration of the double loop in
`CACrosstalkCorrection::BuildCrosstalkMatrix` (CACrosstalkCorrection.cpp
lines 115-142) on the matrix: diagonal set to 0; off-diagonal set to the
pair's two coefficients when the fit is valid, and to 0 otherwise. -/
def bcmEntry (fits : Fin 4 → Fin 4 → CrosstalkFit) (A : Mat4) (i j : Fin 4) : Mat4 :=
  if i = j then setEntry A i j 0
  else if (fits i j).valid then
    setEntry (setEntry A i j (fits i j).alpha_xy) j i (fits i j).alpha_yx
  else
    setEntry (setEntry A i j 0) j i 0

/-- The effect of the same iteration on the diagnostic stream: a warning is
printed exactly in the invalid-fit branch (line 136). -/
def bcmWarn (fits : Fin 4 → Fin 4 → CrosstalkFit) (ws : List String) (i j : Fin 4) :
    List String :=
  if i = j then ws
  else if (fits i j).valid then ws
  else ws ++ [warnMsg i j]

/-- One `(i, j)` iteration of `BuildCrosstalkMatrix`, acting on the matrix
and the warning stream. -/
def bcmStep (fits : Fin 4 → Fin 4 → CrosstalkFit) (acc : Mat4 × List String) (i j : Fin 4) :
    Mat4 × List String :=
  (bcmEntry fits acc.1 i j, bcmWarn fits acc.2 i j)

/-- `CACrosstalkCorrection::BuildCrosstalkMatrix` (CACrosstalkCorrection.cpp
lines 108-145): `A.Zero()`, then `for i in 0..3, for j in i..3` apply the
iteration; the per-pair fit results are abstracted as `fits` (in the code
each comes from `FitCrosstalkCorrection` on the pair's histogram).  The
function always returns a matrix — there is no abort path — together with
the warnings it printed. -/
def BuildCrosstalkMatrix (fits : Fin 4 → Fin 4 → CrosstalkFit) : Mat4 × List String :=
  (List.finRange 4).foldl
    (fun acc i =>
      (((List.finRange 4).filter fun j => i ≤ j)).foldl (fun acc2 j => bcmStep fits acc2 i j) acc)
    (fun _ _ => 0, [])

/-- `static_cast<size_t>(row[0])` (CACrosstalkCorrection.cpp line 189) for
the nonnegative channel indices the matrix files carry; a negative value is
undefined behaviour in the C++. -/
def ratChan (q : ℚ) : ℕ := q.floor.toNat

/-- The body of the row loop of `CACrosstalkCorrection::LoadCrosstalkMatrices`
(CACrosstalkCorrection.cpp lines 183-198): a row without exactly 5 columns
throws; a channel index outside 0..3 throws; otherwise row entries 1..4
overwrite row `channel` of the working matrix `M`. -/
def loadRow (M : Mat4) (row : List ℚ) : Except String Mat4 :=
  if row.length ≠ 5 then
    .error "[ERROR] Invalid row size in crosstalk matrix file. Expected 5 columns (channel, a_i0, a_i1, a_i2, a_i3)"
  else if 4 ≤ ratChan (row.headD 0) then
    .error "[ERROR] Invalid column size in crosstalk matrix file. Expected columns of size 4 (a_0j, a_1j, a_2j, a_3j)"
  else
    .ok (fun a b => if a.1 = ratChan (row.headD 0) then row.getD (b.1 + 1) 0 else M a b)

/-- One section (`matrix_data`) of the outer loop of
`LoadCrosstalkMatrices`: its rows are folded over the working matrix. -/
def loadSection (M : Mat4) (rows : List (List ℚ)) : Except String Mat4 :=
  rows.foldlM loadRow M

/-- The outer loop of `LoadCrosstalkMatrices` (CACrosstalkCorrection.cpp
lines 181-201): the working matrix `M` is carried from one section to the
next (it is zeroed once, before the loop, and never reset), and after each
section its current state is pushed onto the result. -/
def loadGo (M : Mat4) : List (List (List ℚ)) → Except String (List Mat4)
  | [] => .ok []
  | s :: rest => do
      let M2 ← loadSection M s
      let ms ← loadGo M2 rest
      return M2 :: ms

/-- `CACrosstalkCorrection::LoadCrosstalkMatrices` (CACrosstalkCorrection.cpp
lines 168-204): parse the file with `ReadCAFile`, then run the section loop
starting from the zero matrix. -/
def LoadCrosstalkMatrices (lines : List CAUtilities.CALine) : Except String (List Mat4) :=
  loadGo (fun _ _ => 0) (CAUtilities.ReadCAFile lines)

/-- The per-detector correction closure built by
`CACrosstalkCorrection::MakeCorrections` (CACrosstalkCorrection.cpp lines
214-227): `E_corr[i] = E_meas[i] - Σ_j M(i, j) · E_meas[j]`, the inner sum
accumulated by the `j` loop. -/
def correctionFun (M : Mat4) (E_meas : Fin 4 → ℚ) : Fin 4 → ℚ :=
  fun i =>
    E_meas i - (List.finRange 4).foldl (fun correction j => correction + M i j * E_meas j) 0

/-- `CACrosstalkCorrection::MakeCorrections` (CACrosstalkCorrection.cpp
lines 206-231): load the matrices and wrap each in the correction
closure. -/
def MakeCorrections (lines : List CAUtilities.CALine) :
    Except String (List ((Fin 4 → ℚ) → Fin 4 → ℚ)) := do
  let ms ← LoadCrosstalkMatrices lines
  return ms.map correctionFun

end CACrosstalkCorrection

namespace CAGainCorrection

/-- The body of the channel loop of `CAGainCorrection::MakeCorrections`
(CAGainCorrection.cpp lines 41-53): a row without exactly 3 values throws;
otherwise the row yields the closure `x ↦ gain·x + offset` with
`offset = row[1]`, `gain = row[2]`. -/
def loadChannel (row : List ℚ) : Except String (ℚ → ℚ) :=
  if row.length ≠ 3 then
    .error "[ERROR] Unexpected data format in gain shift file. Correct format: channel_number offset gain"
  else
    .ok (fun x => row.getD 2 0 * x + row.getD 1 0)

/-- `CAGainCorrection::MakeCorrections` (CAGainCorrection.cpp lines 15-63),
from the point where the file has been located and parsed by `ReadCAFile`:
every module section is mapped over its channel rows, and the first
malformed row aborts the whole load with the thrown error. -/
def MakeCorrections (lines : List CAUtilities.CALine) :
    Except String (List (List (ℚ → ℚ))) :=
  (CAUtilities.ReadCAFile lines).mapM fun module_Data => module_Data.mapM loadChannel

end CAGainCorrection

namespace GainMatch

/-- `Configuration::kPeakCentroidRatio` (GainMatch tool): 2614.511/1460.820,
the ²⁰⁸Tl/⁴⁰K line ratio. -/
def kPeakCentroidRatio : ℚ := 2614511 / 1460820

/-- `Configuration::kPeakRatioTolerance` (GainMatch tool): 0.0025. -/
def kPeakRatioTolerance : ℚ := 25 / 10000

/-- One `(i, j)` iteration (`j < i`) of the peak-pairing loop of the
GainMatch tool's `main` (part_008 lines 171-189), acting on the accumulator
`(best_ratio, best_pair)`.  Inside the tolerance test, `best_ratio` is
updated only when the new ratio is closer to the reference ratio than the
best so far, but the `best_pair = (peaks[j], peaks[i])` assignment stands
OUTSIDE that inner comparison, so every in-tolerance pair overwrites
`best_pair`. -/
def pairStep (peaks : List ℚ) (acc : ℚ × ℚ × ℚ) (i j : ℕ) : ℚ × ℚ × ℚ :=
  let r := peaks.getD i 0 / peaks.getD j 0
  if |r - kPeakCentroidRatio| / kPeakCentroidRatio < kPeakRatioTolerance then
    (if |r - kPeakCentroidRatio| < |acc.1 - kPeakCentroidRatio| then r else acc.1,
     peaks.getD j 0, peaks.getD i 0)
  else acc

/-- The full pairing loop for one channel (part_008 lines 167-189):
`best_ratio` starts at 0, `best_pair` at `(-1, -1)`; the loops enumerate
`i` over all peaks and `j < i`; the final `best_pair` is returned. -/
def selectBestPair (peaks : List ℚ) : ℚ × ℚ :=
  ((List.range peaks.length).foldl
      (fun acc i => (List.range i).foldl (fun acc2 j => pairStep peaks acc2 i j) acc)
      (0, -1, -1)).2

/-- The acceptance test after the pairing loop (part_008 lines 190-200):
the pair is kept iff both components are positive; otherwise the channel is
reported unmatched (`none`). -/
def matchChannel (peaks : List ℚ) : Option (ℚ × ℚ) :=
  let bp := selectBestPair peaks
  if 0 < bp.1 ∧ 0 < bp.2 then some bp else none

end GainMatch

end CASort

namespace CASort

/-- Accumulating a pointwise contribution over a list is the starting value
plus the sum of the contributions. -/
theorem foldl_add_eq {α : Type} (g : α → ℚ) (l : List α) (c : ℚ) :
    l.foldl (fun acc x => acc + g x) c = c + (l.map g).sum := by
  induction l generalizing c with
  | nil => simp
  | cons a l ih => simp [ih, add_assoc]

/-- Claim C5: the correction closure built by `MakeCorrections` computes
`corrected[i] = E[i] − Σ_j M(i,j)·E[j]` for each `i`, and with the all-zero
matrix it returns the input energies unchanged. -/
theorem claim_C5_correction_formula :
    (∀ (M : CACrosstalkCorrection.Mat4) (E : Fin 4 → ℚ) (i : Fin 4),
      CACrosstalkCorrection.correctionFun M E i = E i - ∑ j, M i j * E j)
  ∧ (∀ (E : Fin 4 → ℚ) (i : Fin 4),
      CACrosstalkCorrection.correctionFun (fun _ _ => 0) E i = E i) := by
  have key : ∀ (M : CACrosstalkCorrection.Mat4) (E : Fin 4 → ℚ) (i : Fin 4),
      CACrosstalkCorrection.correctionFun M E i = E i - ∑ j, M i j * E j := by
    intro M E i
    rw [CACrosstalkCorrection.correctionFun, foldl_add_eq, Fin.sum_univ_def, zero_add]
  refine ⟨key, fun E i => ?_⟩
  rw [key]
  simp

/-- Claim C2 (code bug): at raw amplitude 7000 with slope 2 and offset 0 the
linear energy is 14000, at or above `kMaxCalibrationEnergy` (7282.92), so
per the claim the spline correction must not be added; the code compares the
raw input (7000 < 7282.92) instead and does add it, returning 14100 where
the specified behaviour returns 14000. -/
theorem claim_C2_guard_on_raw_input :
    CACalibration.MakeCalibrationFunc 2 0 (fun _ => 100) 7000 = 14100
  ∧ 2 * (7000 : ℚ) + 0 = 14000
  ∧ CACalibration.kMaxCalibrationEnergy ≤ 14000
  ∧ CACalibration.MakeCalibrationFuncSpec 2 0 (fun _ => 100) 7000 = 14000
  ∧ (14100 : ℚ) ≠ 14000 := by
  norm_num [CACalibration.MakeCalibrationFunc, CACalibration.MakeCalibrationFuncSpec,
    CACalibration.kMaxCalibrationEnergy]

/-- Claim C6 (code bug): on a calibration file whose three lines are
"0 1", "100 5", "200 7", `LoadLinearCalParams` correctly returns
offset 0, slope 1, but `LoadSplineCorrParams` discards the first line
unread, consumes "100 5" as the linear-parameter line, and returns only the
knot (200, 7) — the first knot line is dropped, while the specified parse
collects both (100, 5) and (200, 7). -/
theorem claim_C6_first_knot_dropped :
    CACalibration.LoadSplineKnots [.data 0 1, .data 100 5, .data 200 7] = [(200, 7)]
  ∧ CACalibration.LoadSplineKnotsSpec [.data 0 1, .data 100 5, .data 200 7] =
      [(100, 5), (200, 7)]
  ∧ CACalibration.LoadLinearCalParams [.data 0 1, .data 100 5, .data 200 7] = (0, 1) := by
  refine ⟨?_, ?_, ?_⟩ <;> with_unfolding_all decide

/-- Claim C4 (code bug): with found peaks 1000000, 1789000, 3207677, the
pairs (1000000, 1789000) and (1789000, 3207677) are both within the
relative tolerance of `kPeakCentroidRatio`, and the first has the strictly
closer ratio; the engine nevertheless selects the last in-tolerance pair in
iteration order, (1789000, 3207677), because `best_pair` is assigned
outside the closest-ratio test. -/
theorem claim_C4_last_pair_wins :
    GainMatch.matchChannel [1000000, 1789000, 3207677] = some (1789000, 3207677)
  ∧ |(1789000 : ℚ) / 1000000 - GainMatch.kPeakCentroidRatio| / GainMatch.kPeakCentroidRatio <
      GainMatch.kPeakRatioTolerance
  ∧ |(3207677 : ℚ) / 1789000 - GainMatch.kPeakCentroidRatio| / GainMatch.kPeakCentroidRatio <
      GainMatch.kPeakRatioTolerance
  ∧ |(1789000 : ℚ) / 1000000 - GainMatch.kPeakCentroidRatio| <
      |(3207677 : ℚ) / 1789000 - GainMatch.kPeakCentroidRatio|
  ∧ ((1789000 : ℚ), (3207677 : ℚ)) ≠ ((1000000 : ℚ), (1789000 : ℚ)) := by
  refine ⟨?_, ?_, ?_, ?_, ?_⟩ <;>
    norm_num [GainMatch.matchChannel, GainMatch.selectBestPair, GainMatch.pairStep,
      GainMatch.kPeakCentroidRatio, GainMatch.kPeakRatioTolerance, List.range_succ, abs]

/-- Case analysis of the threshold-seeded primary search: either no crystal
reaches the threshold and no primary exists, or the primary is a crystal of
maximal energy, at least the threshold, and no later crystal matches its
energy (ties go to the last crystal in scan order, because the comparison
is `>=`). -/
theorem CAAddBack_findPrimary_cases (e : Fin 4 → ℚ) :
    ((CAAddBack.findPrimary (fun i => some (e i))).2 = none ∧
      (∀ i, e i < CAAddBack.kAddBackThreshold)) ∨
    (∃ p, CAAddBack.findPrimary (fun i => some (e i)) = (e p, some p) ∧
      CAAddBack.kAddBackThreshold ≤ e p ∧
      (∀ i, e i ≤ e p) ∧ (∀ i, p < i → e i < e p)) := by
  have hl : List.finRange 4 = [0, 1, 2, 3] := rfl
  rw [CAAddBack.findPrimary, hl]
  simp only [List.foldl, CAAddBack.primaryStep, fge, Option.getD_some, decide_eq_true_eq]
  split_ifs <;>
    first
      | (left
         refine ⟨rfl, ?_⟩
         intro i
         fin_cases i <;> simp_all)
      | (right
         refine ⟨_, rfl, ?_, ?_, ?_⟩
         · simp_all <;> linarith
         · intro i; fin_cases i <;> simp_all <;> linarith
         · intro i hi; fin_cases i <;> simp_all <;> linarith)

/-- The per-crystal term of the second loop of `CAAddBack::GetAddBackEnergy`,
on NaN-free inputs, in propositional form. -/
theorem CAAddBack_secondaryContrib_eq (e t : Fin 4 → ℚ) (p i : Fin 4) :
    CAAddBack.secondaryContrib (fun i => some (e i)) (fun i => some (t i)) p i =
      if i ≠ p ∧ CAAddBack.kAddBackThreshold < e i ∧ |t p - t i| < CAAddBack.kAddBackWindow then
        e i
      else 0 := by
  by_cases hip : i = p
  · simp [CAAddBack.secondaryContrib, hip]
  · simp [CAAddBack.secondaryContrib, hip, fgt, fabsSubLt, and_assoc]

/-- When the primary search lands on crystal `p`, the add-back result is the
primary energy plus the qualifying secondary energies. -/
theorem CAAddBack_GetAddBackEnergy_primary (e t : Fin 4 → ℚ) (p : Fin 4)
    (hp : CAAddBack.findPrimary (fun i => some (e i)) = (e p, some p)) :
    CAAddBack.GetAddBackEnergy (fun i => some (e i)) (fun i => some (t i)) =
      e p + ∑ i ∈ Finset.univ.filter
          (fun i => i ≠ p ∧ CAAddBack.kAddBackThreshold < e i ∧
            |t p - t i| < CAAddBack.kAddBackWindow), e i := by
  have h1 : CAAddBack.GetAddBackEnergy (fun i => some (e i)) (fun i => some (t i)) =
      (List.finRange 4).foldl
        (fun acc xtal =>
          acc + CAAddBack.secondaryContrib (fun i => some (e i)) (fun i => some (t i)) p xtal)
        (e p) := by
    rw [CAAddBack.GetAddBackEnergy, hp]
  rw [h1, foldl_add_eq, Finset.sum_filter, Fin.sum_univ_def]
  congr 1
  congr 1
  apply List.map_congr_left
  intro a _
  exact CAAddBack_secondaryContrib_eq e t p a

/-- When the primary search finds no primary, the add-back result is 0. -/
theorem CAAddBack_GetAddBackEnergy_none (E T : Fin 4 → EFloat)
    (h : (CAAddBack.findPrimary E).2 = none) : CAAddBack.GetAddBackEnergy E T = 0 := by
  rcases hfp : CAAddBack.findPrimary E with ⟨pe, idx⟩
  rw [hfp] at h
  simp at h
  subst h
  simp [CAAddBack.GetAddBackEnergy, hfp]

/-- A crystal whose energy is NaN is never chosen by the threshold-seeded
primary search: the `>=` comparison with a NaN energy is false, so the
update never fires for it. -/
theorem CAAddBack_findPrimary_not_nan (E : Fin 4 → EFloat) (i : Fin 4) (hi : E i = none) :
    (CAAddBack.findPrimary E).2 ≠ some i := by
  have key : ∀ (l : List (Fin 4)) (acc : ℚ × Option (Fin 4)),
      (∀ q, acc.2 = some q → E q ≠ none) →
      ∀ q, (l.foldl (CAAddBack.primaryStep E) acc).2 = some q → E q ≠ none := by
    intro l
    induction l with
    | nil => intro acc hacc; exact hacc
    | cons x tl ih =>
        intro acc hacc
        rw [List.foldl_cons]
        refine ih _ ?_
        intro q hq
        by_cases hc : fge (E x) (some acc.1) = true
        · simp only [CAAddBack.primaryStep, hc, if_true] at hq
          obtain rfl : x = q := by simpa using hq
          intro hnone
          rw [hnone] at hc
          simp [fge] at hc
        · simp only [CAAddBack.primaryStep, hc, if_false] at hq
          exact hacc q hq
  intro hc
  exact key (List.finRange 4) (CAAddBack.kAddBackThreshold, none) (by simp) i hc hi

/-- Unwinding the primary search of `AddBack::GetAddBackEnergy` over the tail
of the enumerated list: a chosen index either comes from the accumulator or
designates a list entry that is not NaN. -/
theorem AddBack_findPrimary_go (es : List EFloat) : ∀ (n : ℕ) (acc : ℚ × Option ℕ) (q : ℕ),
    ((es.enumFrom n).foldl AddBack.primaryStep acc).2 = some q →
    acc.2 = some q ∨ (n ≤ q ∧ q - n < es.length ∧ es.getD (q - n) (some 0) ≠ none) := by
  induction es with
  | nil => intro n acc q h; exact Or.inl h
  | cons x tl ih =>
      intro n acc q h
      rw [show List.enumFrom n (x :: tl) = (n, x) :: List.enumFrom (n + 1) tl from rfl,
        List.foldl_cons] at h
      rcases ih (n + 1) (AddBack.primaryStep acc (n, x)) q h with h1 | h2
      · by_cases hc : fgt x (some AddBack.kAddBackThreshold) = true
        · by_cases hc2 : fgt x (some acc.1) = true
          · right
            simp only [AddBack.primaryStep, hc, hc2, if_true] at h1
            obtain rfl : n = q := by simpa using h1
            refine ⟨le_refl n, by simp [Nat.sub_self], ?_⟩
            cases x with
            | none => simp [fgt] at hc
            | some v => simp [Nat.sub_self]
          · left; simpa [AddBack.primaryStep, hc, hc2] using h1
        · left; simpa [AddBack.primaryStep, hc] using h1
      · right
        obtain ⟨hq, hlt, hne⟩ := h2
        have hq' : q - n = (q - (n + 1)) + 1 := by omega
        refine ⟨by omega, ?_, ?_⟩
        · simp only [List.length_cons]; omega
        · rw [hq']
          simpa using hne

/-- A crystal whose energy is NaN is never chosen by the strict-`>` primary
search of `AddBack::GetAddBackEnergy`. -/
theorem AddBack_findPrimary_not_nan (es : List EFloat) (j : ℕ)
    (hj : es.getD j (some 0) = none) : (AddBack.findPrimary es).2 ≠ some j := by
  intro hc
  rcases AddBack_findPrimary_go es 0 (0, none) j hc with h | h
  · simp at h
  · obtain ⟨-, -, hne⟩ := h
    simp only [Nat.sub_zero] at hne
    exact hne hj

set_option maxHeartbeats 1600000 in
/-- In the strict-`>` variant the primary is the first crystal in scan order
attaining the maximal above-threshold energy: every earlier crystal that
passes the threshold has strictly smaller energy. -/
theorem AddBack_findPrimary_first (a b c d : ℚ) (q : ℕ)
    (h : (AddBack.findPrimary [some a, some b, some c, some d]).2 = some q) :
    ∀ i < q, AddBack.kAddBackThreshold < [a, b, c, d].getD i 0 →
      [a, b, c, d].getD i 0 < [a, b, c, d].getD q 0 := by
  have he : ([some a, some b, some c, some d] : List EFloat).enum =
      [(0, some a), (1, some b), (2, some c), (3, some d)] := rfl
  rw [AddBack.findPrimary, he] at h
  simp only [List.foldl, AddBack.primaryStep, fgt, Option.getD_some, decide_eq_true_eq] at h
  split_ifs at h <;> simp at h <;>
    (subst h
     intro i hi hthr
     interval_cases i <;> simp_all [List.getD] <;> linarith)

/-- Claim C1 (amended): in the threshold-seeded `>=` variant
`CAAddBack::GetAddBackEnergy`, if every crystal energy is strictly below the
threshold the result is 0 regardless of the times; when the primary search
selects crystal `p` (which happens whenever some energy is at or above the
threshold, `p` then carrying the greatest energy), the result is `p`'s
energy plus the energy of every other crystal whose energy strictly exceeds
the threshold and whose time differs from `p`'s by strictly less than the
window; in particular energies [500,0,0,0] with times [10,10,10,10] give
500, and [500,200,0,0] with times [10,50,0,0] give 700.  (The original
claim's "no energy above the threshold gives 0" fails at equality: an
energy exactly at the threshold becomes primary.) -/
theorem claim_C1_addback_spec (e t : Fin 4 → ℚ) :
    ((∀ i, e i < CAAddBack.kAddBackThreshold) →
      CAAddBack.GetAddBackEnergy (fun i => some (e i)) (fun i => some (t i)) = 0)
  ∧ (∀ p, (CAAddBack.findPrimary (fun i => some (e i))).2 = some p →
      CAAddBack.GetAddBackEnergy (fun i => some (e i)) (fun i => some (t i)) =
        e p + ∑ i ∈ Finset.univ.filter
          (fun i => i ≠ p ∧ CAAddBack.kAddBackThreshold < e i ∧
            |t p - t i| < CAAddBack.kAddBackWindow), e i)
  ∧ ((∃ i, CAAddBack.kAddBackThreshold ≤ e i) →
      ∃ p, (CAAddBack.findPrimary (fun i => some (e i))).2 = some p ∧
        CAAddBack.kAddBackThreshold ≤ e p ∧ ∀ i, e i ≤ e p)
  ∧ CAAddBack.GetAddBackEnergy (fun i => some ((![500, 0, 0, 0] : Fin 4 → ℚ) i))
      (fun i => some ((![10, 10, 10, 10] : Fin 4 → ℚ) i)) = 500
  ∧ CAAddBack.GetAddBackEnergy (fun i => some ((![500, 200, 0, 0] : Fin 4 → ℚ) i))
      (fun i => some ((![10, 50, 0, 0] : Fin 4 → ℚ) i)) = 700 := by
  refine ⟨?_, ?_, ?_, ?_, ?_⟩
  · intro hall
    rcases CAAddBack_findPrimary_cases e with ⟨hnone, -⟩ | ⟨p, hp, hthr, -, -⟩
    · exact CAAddBack_GetAddBackEnergy_none _ _ hnone
    · exact absurd hthr (by linarith [hall p])
  · intro p hp2
    rcases CAAddBack_findPrimary_cases e with ⟨hnone, -⟩ | ⟨q, hq, -, -, -⟩
    · rw [hnone] at hp2; cases hp2
    · obtain rfl : q = p := by rw [hq] at hp2; simpa using hp2
      exact CAAddBack_GetAddBackEnergy_primary e t q hq
  · rintro ⟨i, hi⟩
    rcases CAAddBack_findPrimary_cases e with ⟨-, hall⟩ | ⟨q, hq, hthr, hmax, -⟩
    · exact absurd hi (by push_neg; exact hall i)
    · exact ⟨q, by rw [hq], hthr, hmax⟩
  · with_unfolding_all decide
  · with_unfolding_all decide

/-- Claim C1 witness: with all energies strictly below the threshold the
add-back result is 0. -/
theorem claim_C1_addback_spec_witness :
    CAAddBack.GetAddBackEnergy (fun i => some ((![100, 0, 0, 0] : Fin 4 → ℚ) i))
      (fun i => some ((![10, 10, 10, 10] : Fin 4 → ℚ) i)) = 0 :=
  (claim_C1_addback_spec ![100, 0, 0, 0] ![10, 10, 10, 10]).1 (by
    intro i
    fin_cases i <;> norm_num [CAAddBack.kAddBackThreshold])

/-- Claim C1 counterexample: energies [150, 0, 0, 0] have no entry above the
threshold (150 is not strictly greater than `kAddBackThreshold`, and neither
is 0), yet the function returns 150, not 0: the `>=`-seeded search makes a
crystal exactly at the threshold primary. -/
theorem claim_C1_counterexample :
    CAAddBack.GetAddBackEnergy (fun i => some ((![150, 0, 0, 0] : Fin 4 → ℚ) i))
      (fun i => some ((![10, 10, 10, 10] : Fin 4 → ℚ) i)) = 150
  ∧ ¬ CAAddBack.kAddBackThreshold < 150
  ∧ ¬ CAAddBack.kAddBackThreshold < 0
  ∧ (150 : ℚ) ≠ 0 := by
  refine ⟨by with_unfolding_all decide, ?_, ?_, ?_⟩ <;>
    norm_num [CAAddBack.kAddBackThreshold]

/-- Claim C7 (amended): in the strict-`>` variant (`AddBack`), among
crystals passing the threshold that tie for the greatest energy the first
in scan order is primary (every earlier qualifying crystal is strictly
smaller); in the threshold-seeded `>=` variant (`CAAddBack`), the last such
crystal is primary (every later crystal is strictly smaller).  The original
claim's "first occurrence wins in every variant" fails for the `>=`
variant. -/
theorem claim_C7_tiebreak (e : Fin 4 → ℚ) (p : Fin 4) (a b c d : ℚ) (q : ℕ) :
    ((CAAddBack.findPrimary (fun i => some (e i))).2 = some p →
      ∀ i, p < i → e i < e p)
  ∧ ((AddBack.findPrimary [some a, some b, some c, some d]).2 = some q →
      ∀ i < q, AddBack.kAddBackThreshold < [a, b, c, d].getD i 0 →
        [a, b, c, d].getD i 0 < [a, b, c, d].getD q 0) := by
  constructor
  · intro hp2
    rcases CAAddBack_findPrimary_cases e with ⟨hnone, -⟩ | ⟨r, hr, -, -, hlast⟩
    · rw [hnone] at hp2; cases hp2
    · obtain rfl : r = p := by rw [hr] at hp2; simpa using hp2
      exact hlast
  · exact AddBack_findPrimary_first a b c d q

/-- Claim C7 witness: on energies [500, 500, 0, 0] the `>=` variant selects
crystal 1, and everything after it is strictly smaller; the `>` variant on
[200, 500, 0, 0] selects crystal 1, and the earlier qualifying crystal is
strictly smaller. -/
theorem claim_C7_tiebreak_witness :
    (∀ i : Fin 4, (1 : Fin 4) < i →
      (![500, 500, 0, 0] : Fin 4 → ℚ) i < (![500, 500, 0, 0] : Fin 4 → ℚ) 1)
  ∧ (∀ i < 1, AddBack.kAddBackThreshold < [(200 : ℚ), 500, 0, 0].getD i 0 →
      [(200 : ℚ), 500, 0, 0].getD i 0 < [(200 : ℚ), 500, 0, 0].getD 1 0) :=
  ⟨(claim_C7_tiebreak ![500, 500, 0, 0] 1 200 500 0 0 1).1 (by with_unfolding_all decide),
   (claim_C7_tiebreak ![500, 500, 0, 0] 1 200 500 0 0 1).2 (by with_unfolding_all decide)⟩

/-- Claim C7 counterexample: on the tie [500, 500, 0, 0] the
threshold-seeded `>=` variant selects crystal 1, not the first tied crystal
0. -/
theorem claim_C7_counterexample :
    (CAAddBack.findPrimary (fun i => some ((![500, 500, 0, 0] : Fin 4 → ℚ) i))).2 = some 1
  ∧ (CAAddBack.findPrimary (fun i => some ((![500, 500, 0, 0] : Fin 4 → ℚ) i))).2 ≠ some 0
  ∧ (![500, 500, 0, 0] : Fin 4 → ℚ) 0 = (![500, 500, 0, 0] : Fin 4 → ℚ) 1 := by
  refine ⟨?_, ?_, ?_⟩ <;> with_unfolding_all decide

/-- Claim C8: a NaN energy compares false against the threshold under both
`>` and `>=`, is never selected as primary by either variant's search, and
contributes nothing to either variant's sum; the remaining crystals are
processed as usual (their treatment is exactly the per-crystal terms proved
elsewhere). -/
theorem claim_C8_nan_excluded (E T : Fin 4 → EFloat) (i : Fin 4) (hi : E i = none)
    (x0 x1 x2 x3 : EFloat) (ts : List EFloat) (hidx j : ℕ)
    (hj : [x0, x1, x2, x3].getD j (some 0) = none) :
    (∀ y, fgt (E i) y = false)
  ∧ (∀ y, fge (E i) y = false)
  ∧ (CAAddBack.findPrimary E).2 ≠ some i
  ∧ (∀ p, CAAddBack.secondaryContrib E T p i = 0)
  ∧ (AddBack.findPrimary [x0, x1, x2, x3]).2 ≠ some j
  ∧ AddBack.contrib ts hidx (j, none) = 0 := by
  refine ⟨?_, ?_, ?_, ?_, ?_, ?_⟩
  · intro y; rw [hi]; cases y <;> rfl
  · intro y; rw [hi]; cases y <;> rfl
  · exact CAAddBack_findPrimary_not_nan E i hi
  · intro p
    simp [CAAddBack.secondaryContrib, hi, fgt]
  · exact AddBack_findPrimary_not_nan [x0, x1, x2, x3] j hj
  · simp [AddBack.contrib, fgt]

/-- Claim C8 witness: with crystal 1's energy NaN it is not the primary of
either variant and its loop contribution is 0. -/
theorem claim_C8_nan_excluded_witness :
    (CAAddBack.findPrimary ![some 300, none, some 0, some 0]).2 ≠ some 1
  ∧ (AddBack.findPrimary [some 300, none, some 0, some 0]).2 ≠ some 1
  ∧ AddBack.contrib [some 10, some 10, some 10, some 10] 0 (1, none) = 0 :=
  ⟨(claim_C8_nan_excluded ![some 300, none, some 0, some 0]
      ![some 10, some 10, some 10, some 10] 1 rfl
      (some 300) none (some 0) (some 0) [some 10, some 10, some 10, some 10] 0 1
      (by rfl)).2.2.1,
   (claim_C8_nan_excluded ![some 300, none, some 0, some 0]
      ![some 10, some 10, some 10, some 10] 1 rfl
      (some 300) none (some 0) (some 0) [some 10, some 10, some 10, some 10] 0 1
      (by rfl)).2.2.2.2.1,
   (claim_C8_nan_excluded ![some 300, none, some 0, some 0]
      ![some 10, some 10, some 10, some 10] 1 rfl
      (some 300) none (some 0) (some 0) [some 10, some 10, some 10, some 10] 0 1
      (by rfl)).2.2.2.2.2⟩

/-- Binding a successful `Except` computation applies the continuation. -/
theorem Except_bind_ok {ε α β : Type} (a : α) (f : α → Except ε β) :
    (Except.ok a >>= f) = f a := rfl

/-- Binding a failed `Except` computation propagates the error. -/
theorem Except_bind_error {ε α β : Type} (e : ε) (f : α → Except ε β) :
    ((Except.error e : Except ε α) >>= f) = Except.error e := rfl

/-- `pure` for `Except` is `ok`. -/
theorem Except_pure_eq {ε α : Type} (a : α) : (pure a : Except ε α) = Except.ok a := rfl

/-- The double loop of `BuildCrosstalkMatrix` unrolled into its ten `(i, j)`
iterations with `j ≥ i`, in loop order. -/
theorem BuildCrosstalkMatrix_expand (fits : Fin 4 → Fin 4 → CACrosstalkCorrection.CrosstalkFit) :
    CACrosstalkCorrection.BuildCrosstalkMatrix fits =
      CACrosstalkCorrection.bcmStep fits (CACrosstalkCorrection.bcmStep fits
        (CACrosstalkCorrection.bcmStep fits (CACrosstalkCorrection.bcmStep fits
        (CACrosstalkCorrection.bcmStep fits (CACrosstalkCorrection.bcmStep fits
        (CACrosstalkCorrection.bcmStep fits (CACrosstalkCorrection.bcmStep fits
        (CACrosstalkCorrection.bcmStep fits (CACrosstalkCorrection.bcmStep fits
        (fun _ _ => 0, []) 0 0) 0 1) 0 2) 0 3) 1 1) 1 2) 1 3) 2 2) 2 3) 3 3 := rfl

/-- A warning already in the stream survives any later iteration. -/
theorem bcmWarn_mem_mono (fits : Fin 4 → Fin 4 → CACrosstalkCorrection.CrosstalkFit)
    (ws : List String) (i j : Fin 4) (m : String) (hm : m ∈ ws) :
    m ∈ CACrosstalkCorrection.bcmWarn fits ws i j := by
  unfold CACrosstalkCorrection.bcmWarn
  split_ifs <;> simp [hm]

/-- The invalid-fit branch of an off-diagonal iteration emits its warning. -/
theorem bcmWarn_self (fits : Fin 4 → Fin 4 → CACrosstalkCorrection.CrosstalkFit)
    (ws : List String) (i j : Fin 4) (hij : ¬ i = j)
    (hv : (fits i j).valid = false) :
    CACrosstalkCorrection.warnMsg i j ∈ CACrosstalkCorrection.bcmWarn fits ws i j := by
  simp [CACrosstalkCorrection.bcmWarn, hij, hv]

/-- Claim C3 (amended): `FitCrosstalkCorrection` marks every fit result valid
regardless of whether the minimization converged; and if
`BuildCrosstalkMatrix` is handed an invalid fit for pair `(i, j)` it does
not abort — it writes 0 into both off-diagonal coefficients, prints a
warning, and returns the assembled matrix. -/
theorem claim_C3_invalid_fit_behavior
    (fits : Fin 4 → Fin 4 → CACrosstalkCorrection.CrosstalkFit) (i j : Fin 4)
    (hij : i < j) (hv : (fits i j).valid = false) :
    (∀ fit : CACrosstalkCorrection.FitOutcome,
      (CACrosstalkCorrection.FitCrosstalkCorrection fit).valid = true)
  ∧ (CACrosstalkCorrection.BuildCrosstalkMatrix fits).1 i j = 0
  ∧ (CACrosstalkCorrection.BuildCrosstalkMatrix fits).1 j i = 0
  ∧ CACrosstalkCorrection.warnMsg i j ∈ (CACrosstalkCorrection.BuildCrosstalkMatrix fits).2 := by
  rw [BuildCrosstalkMatrix_expand]
  have hcases : ∀ (a b : Fin 4), a < b →
      (a = 0 ∧ b = 1) ∨ (a = 0 ∧ b = 2) ∨ (a = 0 ∧ b = 3) ∨
      (a = 1 ∧ b = 2) ∨ (a = 1 ∧ b = 3) ∨ (a = 2 ∧ b = 3) := by decide
  rcases hcases i j hij with ⟨rfl, rfl⟩ | ⟨rfl, rfl⟩ | ⟨rfl, rfl⟩ | ⟨rfl, rfl⟩ |
    ⟨rfl, rfl⟩ | ⟨rfl, rfl⟩ <;>
    (refine ⟨fun _ => rfl, ?_, ?_, ?_⟩
     · simp [CACrosstalkCorrection.bcmStep, CACrosstalkCorrection.bcmEntry,
         CACrosstalkCorrection.setEntry, ite_apply, ite_self, hv]
     · simp [CACrosstalkCorrection.bcmStep, CACrosstalkCorrection.bcmEntry,
         CACrosstalkCorrection.setEntry, ite_apply, ite_self, hv]
     · simp only [CACrosstalkCorrection.bcmStep]
       repeat
         first
           | exact bcmWarn_self fits _ _ _ (by decide) hv
           | apply bcmWarn_mem_mono)

/-- Claim C3 witness: against an all-invalid fit table, the built matrix has
zeros at (0,1) and (1,0) and its warning stream contains the pair's
warning. -/
theorem claim_C3_invalid_fit_behavior_witness :
    (CACrosstalkCorrection.BuildCrosstalkMatrix
      (fun _ _ => CACrosstalkCorrection.invalidFit)).1 0 1 = 0
  ∧ (CACrosstalkCorrection.BuildCrosstalkMatrix
      (fun _ _ => CACrosstalkCorrection.invalidFit)).1 1 0 = 0
  ∧ CACrosstalkCorrection.warnMsg 0 1 ∈
      (CACrosstalkCorrection.BuildCrosstalkMatrix
        (fun _ _ => CACrosstalkCorrection.invalidFit)).2 :=
  ⟨(claim_C3_invalid_fit_behavior (fun _ _ => CACrosstalkCorrection.invalidFit) 0 1
      (by decide) rfl).2.1,
   (claim_C3_invalid_fit_behavior (fun _ _ => CACrosstalkCorrection.invalidFit) 0 1
      (by decide) rfl).2.2.1,
   (claim_C3_invalid_fit_behavior (fun _ _ => CACrosstalkCorrection.invalidFit) 0 1
      (by decide) rfl).2.2.2⟩

/-- Claim C3 counterexample: a fit outcome whose minimization did not
converge is still marked valid by `FitCrosstalkCorrection`, and
`BuildCrosstalkMatrix` handed an invalid fit returns a matrix (zero at the
pair) plus a non-empty warning stream instead of aborting. -/
theorem claim_C3_counterexample :
    (CACrosstalkCorrection.FitCrosstalkCorrection
      { converged := false, par0 := 1, par1 := 1, err0 := 1, err1 := 1,
        chi2 := 5, ndf := 1 }).valid = true
  ∧ (CACrosstalkCorrection.BuildCrosstalkMatrix
      (fun _ _ => CACrosstalkCorrection.invalidFit)).1 0 1 = 0
  ∧ (CACrosstalkCorrection.BuildCrosstalkMatrix
      (fun _ _ => CACrosstalkCorrection.invalidFit)).2 ≠ [] := by
  refine ⟨rfl, ?_, ?_⟩ <;> with_unfolding_all decide

/-- `loadRow` on a row without exactly 5 columns throws. -/
theorem loadRow_length_error (M : CACrosstalkCorrection.Mat4) (row : List ℚ)
    (hl : row.length ≠ 5) : ∃ e, CACrosstalkCorrection.loadRow M row = .error e :=
  ⟨_, by rw [CACrosstalkCorrection.loadRow, if_pos hl]⟩

/-- A section containing a row without exactly 5 columns makes the row loop
throw, whatever the working matrix. -/
theorem loadSection_error (rows : List (List ℚ)) (r : List ℚ) (hr : r ∈ rows)
    (hl : r.length ≠ 5) :
    ∀ M, ∃ e, CACrosstalkCorrection.loadSection M rows = .error e := by
  induction rows with
  | nil => cases hr
  | cons a tl ih =>
      intro M
      rcases List.mem_cons.mp hr with rfl | hmem
      · obtain ⟨e, he⟩ := loadRow_length_error M r hl
        exact ⟨e, by
          rw [CACrosstalkCorrection.loadSection, List.foldlM_cons, he, Except_bind_error]⟩
      · cases hLoad : CACrosstalkCorrection.loadRow M a with
        | error e =>
            exact ⟨e, by
              rw [CACrosstalkCorrection.loadSection, List.foldlM_cons, hLoad,
                Except_bind_error]⟩
        | ok M2 =>
            obtain ⟨e, he⟩ := ih hmem M2
            refine ⟨e, ?_⟩
            rw [CACrosstalkCorrection.loadSection, List.foldlM_cons, hLoad, Except_bind_ok]
            exact he

/-- A file in which any section has a malformed row makes the section loop
throw, whatever the working matrix. -/
theorem loadGo_error (secs : List (List (List ℚ))) (s : List (List ℚ)) (hs : s ∈ secs)
    (r : List ℚ) (hr : r ∈ s) (hl : r.length ≠ 5) :
    ∀ M, ∃ e, CACrosstalkCorrection.loadGo M secs = .error e := by
  induction secs with
  | nil => cases hs
  | cons s0 tl ih =>
      intro M
      rcases List.mem_cons.mp hs with rfl | hmem
      · obtain ⟨e, he⟩ := loadSection_error s r hr hl M
        exact ⟨e, by simp only [CACrosstalkCorrection.loadGo, he, Except_bind_error]⟩
      · cases hS : CACrosstalkCorrection.loadSection M s0 with
        | error e =>
            exact ⟨e, by simp only [CACrosstalkCorrection.loadGo, hS, Except_bind_error]⟩
        | ok M2 =>
            obtain ⟨e, he⟩ := ih hmem M2
            exact ⟨e, by
              simp only [CACrosstalkCorrection.loadGo, hS, Except_bind_ok, he,
                Except_bind_error]⟩

/-- `loadChannel` on a row without exactly 3 values throws. -/
theorem loadChannel_length_error (row : List ℚ) (hl : row.length ≠ 3) :
    ∃ e, CAGainCorrection.loadChannel row = .error e :=
  ⟨_, by rw [CAGainCorrection.loadChannel, if_pos hl]⟩

/-- A module section containing a row without exactly 3 values makes the
channel loop throw. -/
theorem mapM_loadChannel_error (rows : List (List ℚ)) (r : List ℚ) (hr : r ∈ rows)
    (hl : r.length ≠ 3) : ∃ e, rows.mapM CAGainCorrection.loadChannel = .error e := by
  induction rows with
  | nil => cases hr
  | cons a tl ih =>
      rcases List.mem_cons.mp hr with rfl | hmem
      · obtain ⟨e, he⟩ := loadChannel_length_error r hl
        exact ⟨e, by rw [List.mapM_cons, he, Except_bind_error]⟩
      · cases hLoad : CAGainCorrection.loadChannel a with
        | error e =>
            exact ⟨e, by rw [List.mapM_cons, hLoad, Except_bind_error]⟩
        | ok f =>
            obtain ⟨e, he⟩ := ih hmem
            exact ⟨e, by rw [List.mapM_cons, hLoad, Except_bind_ok, he, Except_bind_error]⟩

/-- A failing module section makes the whole gain-shift load throw. -/
theorem mapM_sections_error (secs : List (List (List ℚ))) (s : List (List ℚ))
    (hs : s ∈ secs) (e : String)
    (he : s.mapM CAGainCorrection.loadChannel = .error e) :
    ∃ e2, secs.mapM (fun md => md.mapM CAGainCorrection.loadChannel) = .error e2 := by
  induction secs with
  | nil => cases hs
  | cons a tl ih =>
      rcases List.mem_cons.mp hs with rfl | hmem
      · exact ⟨e, by rw [List.mapM_cons, he, Except_bind_error]⟩
      · cases hA : List.mapM CAGainCorrection.loadChannel a with
        | error e2 =>
            exact ⟨e2, by rw [List.mapM_cons, hA, Except_bind_error]⟩
        | ok fs =>
            obtain ⟨e2, he2⟩ := ih hmem
            exact ⟨e2, by rw [List.mapM_cons, hA, Except_bind_ok, he2, Except_bind_error]⟩

/-- Claim C9: a crosstalk-matrix file containing a data row without exactly
5 columns makes `LoadCrosstalkMatrices` throw a descriptive error, and a
gain-shift file containing a data row without exactly 3 values makes
`CAGainCorrection::MakeCorrections` throw a descriptive error; neither
returns a partially loaded table. -/
theorem claim_C9_malformed_aborts (lines1 lines2 : List CAUtilities.CALine)
    (s1 s2 : List (List ℚ)) (r1 r2 : List ℚ)
    (hs1 : s1 ∈ CAUtilities.ReadCAFile lines1) (hr1 : r1 ∈ s1) (hl1 : r1.length ≠ 5)
    (hs2 : s2 ∈ CAUtilities.ReadCAFile lines2) (hr2 : r2 ∈ s2) (hl2 : r2.length ≠ 3) :
    (∃ msg, CACrosstalkCorrection.LoadCrosstalkMatrices lines1 = .error msg)
  ∧ (∃ msg, CAGainCorrection.MakeCorrections lines2 = .error msg) := by
  constructor
  · rw [CACrosstalkCorrection.LoadCrosstalkMatrices]
    exact loadGo_error (CAUtilities.ReadCAFile lines1) s1 hs1 r1 hr1 hl1 _
  · rw [CAGainCorrection.MakeCorrections]
    obtain ⟨e, he⟩ := mapM_loadChannel_error s2 r2 hr2 hl2
    exact mapM_sections_error (CAUtilities.ReadCAFile lines2) s2 hs2 e he

/-- Claim C9 witness: a matrix file whose one data row has 4 columns, and a
gain-shift file whose one data row has 5 values, both abort their loads. -/
theorem claim_C9_malformed_aborts_witness :
    (∃ msg, CACrosstalkCorrection.LoadCrosstalkMatrices
        [.header false, .data [0, 1, 2, 3]] = .error msg)
  ∧ (∃ msg, CAGainCorrection.MakeCorrections
        [.header false, .data [0, 1, 2, 3, 4]] = .error msg) :=
  claim_C9_malformed_aborts
    [.header false, .data [0, 1, 2, 3]] [.header false, .data [0, 1, 2, 3, 4]]
    [[0, 1, 2, 3]] [[0, 1, 2, 3, 4]] [0, 1, 2, 3] [0, 1, 2, 3, 4]
    (by with_unfolding_all decide) (by with_unfolding_all decide) (by decide)
    (by with_unfolding_all decide) (by with_unfolding_all decide) (by decide)

/-- A successful row load leaves every matrix row other than the row's
channel untouched. -/
theorem loadRow_carry (M M2 : CACrosstalkCorrection.Mat4) (row : List ℚ) (c j : Fin 4)
    (h : CACrosstalkCorrection.loadRow M row = .ok M2)
    (hc : CACrosstalkCorrection.ratChan (row.headD 0) ≠ c.1) : M2 c j = M c j := by
  rw [CACrosstalkCorrection.loadRow] at h
  split_ifs at h with h1 h2
  have hM2 : M2 = fun (a b : Fin 4) =>
      if a.1 = CACrosstalkCorrection.ratChan (row.headD 0) then row.getD (b.1 + 1) 0
      else M a b := by
    have h3 := h
    simp only [Except.ok.injEq] at h3
    exact h3.symm
  rw [hM2]
  have hcc : ¬ (c.1 = CACrosstalkCorrection.ratChan (row.headD 0)) := fun hh => hc hh.symm
  show (if c.1 = CACrosstalkCorrection.ratChan (row.headD 0) then row.getD (j.1 + 1) 0
    else M c j) = M c j
  exact if_neg hcc

/-- A successful section load leaves every matrix row whose channel index
appears in none of the section's rows untouched. -/
theorem loadSection_carry (rows : List (List ℚ)) (c j : Fin 4)
    (hc : ∀ r ∈ rows, CACrosstalkCorrection.ratChan (r.headD 0) ≠ c.1) :
    ∀ M M2, CACrosstalkCorrection.loadSection M rows = .ok M2 → M2 c j = M c j := by
  induction rows with
  | nil =>
      intro M M2 h
      obtain rfl : M = M2 := by
        simpa [CACrosstalkCorrection.loadSection, Except_pure_eq] using h
      rfl
  | cons a tl ih =>
      intro M M2 h
      rw [CACrosstalkCorrection.loadSection, List.foldlM_cons] at h
      cases hLoad : CACrosstalkCorrection.loadRow M a with
      | error e => rw [hLoad, Except_bind_error] at h; cases h
      | ok Ma =>
          rw [hLoad, Except_bind_ok] at h
          have h1 := ih (fun r hr => hc r (List.mem_cons_of_mem a hr)) Ma M2 h
          rw [h1]
          exact loadRow_carry M Ma a c j hLoad (hc a (List.mem_cons_self a tl))

/-- The section loop of `LoadCrosstalkMatrices` chains the working matrix:
each output matrix is the previous output matrix updated by its own
section's rows (the matrix is never reset between sections). -/
theorem loadGo_ok (secs : List (List (List ℚ))) :
    ∀ (M : CACrosstalkCorrection.Mat4) (ms : List CACrosstalkCorrection.Mat4),
    CACrosstalkCorrection.loadGo M secs = .ok ms →
    ms.length = secs.length ∧
    (secs ≠ [] → CACrosstalkCorrection.loadSection M (secs.getD 0 []) =
      .ok (ms.getD 0 default)) ∧
    (∀ k, k + 1 < secs.length →
      CACrosstalkCorrection.loadSection (ms.getD k default) (secs.getD (k + 1) []) =
        .ok (ms.getD (k + 1) default)) := by
  induction secs with
  | nil =>
      intro M ms h
      obtain rfl : ([] : List CACrosstalkCorrection.Mat4) = ms := by
        simpa [CACrosstalkCorrection.loadGo, Except_pure_eq] using h
      exact ⟨rfl, fun hne => absurd rfl hne, fun k hk => absurd hk (by simp)⟩
  | cons s0 tl ih =>
      intro M ms h
      cases hS : CACrosstalkCorrection.loadSection M s0 with
      | error e => simp only [CACrosstalkCorrection.loadGo, hS, Except_bind_error] at h; cases h
      | ok M2 =>
          simp only [CACrosstalkCorrection.loadGo, hS, Except_bind_ok] at h
          cases hG : CACrosstalkCorrection.loadGo M2 tl with
          | error e => rw [hG, Except_bind_error] at h; cases h
          | ok ms2 =>
              rw [hG, Except_bind_ok] at h
              obtain rfl : M2 :: ms2 = ms := by simpa [Except_pure_eq] using h
              obtain ⟨hlen, hfirst, hchain⟩ := ih M2 ms2 hG
              refine ⟨by simp [hlen], fun _ => by simpa using hS, ?_⟩
              intro k hk
              cases k with
              | zero =>
                  have htl : tl ≠ [] := by
                    intro hnil
                    rw [hnil] at hk
                    simp at hk
                  simpa using hfirst htl
              | succ k2 =>
                  have hk2 : k2 + 1 < tl.length := by
                    simp only [List.length_cons] at hk
                    omega
                  simpa using hchain k2 hk2

/-- Claim C10: the working matrix of `LoadCrosstalkMatrices` is zeroed only
once; when a detector section after the first omits a channel row, the
returned matrix for that detector keeps, in the omitted row, the values of
the previous detector's matrix. -/
theorem claim_C10_carry_over (lines : List CAUtilities.CALine)
    (ms : List CACrosstalkCorrection.Mat4) (k : ℕ) (c j : Fin 4)
    (h : CACrosstalkCorrection.LoadCrosstalkMatrices lines = .ok ms)
    (hk : k + 1 < ms.length)
    (hc : ∀ r ∈ (CAUtilities.ReadCAFile lines).getD (k + 1) [],
      CACrosstalkCorrection.ratChan (r.headD 0) ≠ c.1) :
    ms.getD (k + 1) default c j = ms.getD k default c j := by
  obtain ⟨hlen, -, hchain⟩ := loadGo_ok (CAUtilities.ReadCAFile lines) (fun _ _ => 0) ms h
  have hk2 : k + 1 < (CAUtilities.ReadCAFile lines).length := by omega
  exact loadSection_carry ((CAUtilities.ReadCAFile lines).getD (k + 1) []) c j hc
    (ms.getD k default) (ms.getD (k + 1) default) (hchain k hk2)

/-- Claim C10 witness: a two-detector file whose second section has only a
channel-0 row; row 3 of the second returned matrix equals row 3 of the
first (carrying 7 over, rather than 0). -/
theorem claim_C10_carry_over_witness :
    ((CACrosstalkCorrection.LoadCrosstalkMatrices
        [.header true, .header false,
         .data [0, 9, 9, 9, 9], .data [1, 1, 1, 1, 1], .data [2, 1, 1, 1, 1],
         .data [3, 7, 7, 7, 7],
         .header false, .data [0, 5, 5, 5, 5]]).toOption.getD []).getD 1 default 3 0 =
    ((CACrosstalkCorrection.LoadCrosstalkMatrices
        [.header true, .header false,
         .data [0, 9, 9, 9, 9], .data [1, 1, 1, 1, 1], .data [2, 1, 1, 1, 1],
         .data [3, 7, 7, 7, 7],
         .header false, .data [0, 5, 5, 5, 5]]).toOption.getD []).getD 0 default 3 0 :=
  claim_C10_carry_over
    [.header true, .header false,
     .data [0, 9, 9, 9, 9], .data [1, 1, 1, 1, 1], .data [2, 1, 1, 1, 1],
     .data [3, 7, 7, 7, 7],
     .header false, .data [0, 5, 5, 5, 5]] _ 0 3 0
    (by with_unfolding_all rfl)
    (by with_unfolding_all decide)
    (by with_unfolding_all decide)

end CASort
